import Mathlib

/-!
# Verification of the temperature-dashboard ingestion simulator

A shallow embedding of `simulator/ingest_simulator.py` (class
`IngestionSimulator`): the HMAC-SHA256 signer, the CSV reading loader,
the time filter, the timestamp sort, the batching loop of
`simulate_ingestion`, and the per-batch statistics fold.  Machine
integers are modelled as `Nat` reduced modulo `2 ^ 32` where the source
operates on 32-bit words; Python floats that the claims exercise only as
exact decimals are kept exactly (reading values as decimal
mantissa/scale pairs, the speed multiplier and sleep durations as `ℚ`);
fallible code returns `Except` / `Option`.
-/

/-! ## 32-bit words as `Nat` modulo `2 ^ 32` -/

/-- Truncate to a 32-bit word. -/
def w32 (n : Nat) : Nat := n % 4294967296

/-- Right rotation of a 32-bit word. -/
def rotr32 (n x : Nat) : Nat := w32 ((x >>> n) ||| (x <<< (32 - n)))

/-- Bitwise complement of a 32-bit word. -/
def not32 (x : Nat) : Nat := x ^^^ 4294967295

/-! ## SHA-256 (FIPS 180-4), over byte lists

Models Python's `hashlib.sha256` on byte strings: bytes are `Nat`s
below 256, words are `Nat`s below `2 ^ 32`. -/

/-- The SHA-256 round constants. -/
def shaK : List Nat :=
  [1116352408, 1899447441, 3049323471, 3921009573, 961987163,
   1508970993, 2453635748, 2870763221, 3624381080, 310598401,
   607225278, 1426881987, 1925078388, 2162078206, 2614888103,
   3248222580, 3835390401, 4022224774, 264347078, 604807628,
   770255983, 1249150122, 1555081692, 1996064986, 2554220882,
   2821834349, 2952996808, 3210313671, 3336571891, 3584528711,
   113926993, 338241895, 666307205, 773529912, 1294757372,
   1396182291, 1695183700, 1986661051, 2177026350, 2456956037,
   2730485921, 2820302411, 3259730800, 3345764771, 3516065817,
   3600352804, 4094571909, 275423344, 430227734, 506948616,
   659060556, 883997877, 958139571, 1322822218, 1537002063,
   1747873779, 1955562222, 2024104815, 2227730452, 2361852424,
   2428436474, 2756734187, 3204031479, 3329325298]

/-- The SHA-256 initial hash value. -/
def shaH0 : List Nat :=
  [1779033703, 3144134277, 1013904242, 2773480762, 1359893119, 2600822924, 528734635, 1541459225]

/-- SHA-256 `Ch` function. -/
def shaCh (x y z : Nat) : Nat := (x &&& y) ^^^ (not32 x &&& z)

/-- SHA-256 `Maj` function. -/
def shaMaj (x y z : Nat) : Nat := (x &&& y) ^^^ (x &&& z) ^^^ (y &&& z)

/-- SHA-256 `Σ0`. -/
def bsig0 (x : Nat) : Nat := rotr32 2 x ^^^ rotr32 13 x ^^^ rotr32 22 x

/-- SHA-256 `Σ1`. -/
def bsig1 (x : Nat) : Nat := rotr32 6 x ^^^ rotr32 11 x ^^^ rotr32 25 x

/-- SHA-256 `σ0`. -/
def ssig0 (x : Nat) : Nat := rotr32 7 x ^^^ rotr32 18 x ^^^ (x >>> 3)

/-- SHA-256 `σ1`. -/
def ssig1 (x : Nat) : Nat := rotr32 17 x ^^^ rotr32 19 x ^^^ (x >>> 10)

/-- Split a list into chunks of `n` elements (`n > 0` supplied by callers;
for `n = 0` the remainder is dropped to keep the function total). -/
def chunksOf (n : Nat) : List α → List (List α)
  | [] => []
  | a :: l =>
    if n = 0 then [] else (a :: l).take n :: chunksOf n ((a :: l).drop n)
termination_by l => l.length
decreasing_by
  simp only [List.length_drop, List.length_cons]
  omega

/-- Big-endian decoding of groups of 4 bytes into 32-bit words. -/
def bytesToWords (bs : List Nat) : List Nat :=
  (chunksOf 4 bs).map fun c =>
    c.foldl (fun acc b => acc * 256 + b) 0

/-- Big-endian encoding of a 32-bit word as 4 bytes. -/
def wordToBytes (x : Nat) : List Nat :=
  [x / 16777216 % 256, x / 65536 % 256, x / 256 % 256, x % 256]

/-- Big-endian encoding of a number as 8 bytes (the message-length field). -/
def lenToBytes8 (x : Nat) : List Nat :=
  (List.range 8).map fun i => x / 256 ^ (7 - i) % 256

/-- SHA-256 padding: append `0x80`, zeros up to 56 mod 64, then the
bit length as 8 big-endian bytes. -/
def shaPad (msg : List Nat) : List Nat :=
  let len := msg.length
  let zeros := (119 - len % 64) % 64
  msg ++ [0x80] ++ List.replicate zeros 0 ++ lenToBytes8 (8 * len)

/-- Extend the 16 words of a block to the 64-word message schedule. -/
def shaSchedule (block : List Nat) : List Nat :=
  (List.range 48).foldl
    (fun ws _ =>
      ws ++ [w32 (ssig1 (ws.getD (ws.length - 2) 0) + ws.getD (ws.length - 7) 0 +
                  ssig0 (ws.getD (ws.length - 15) 0) + ws.getD (ws.length - 16) 0)])
    block

/-- One round of the SHA-256 compression function on the 8-register state. -/
def shaRound (st : List Nat) (wk : Nat × Nat) : List Nat :=
  match st with
  | [a, b, c, d, e, f, g, h] =>
    let t1 := w32 (h + bsig1 e + shaCh e f g + wk.2 + wk.1)
    let t2 := w32 (bsig0 a + shaMaj a b c)
    [w32 (t1 + t2), a, b, c, w32 (d + t1), e, f, g]
  | other => other

/-- Process one 64-byte block. -/
def shaCompress (hs : List Nat) (block : List Nat) : List Nat :=
  let ws := shaSchedule (bytesToWords block)
  let st := (ws.zip shaK).foldl shaRound hs
  (hs.zip st).map fun p => w32 (p.1 + p.2)

/-- SHA-256 of a byte list, as a 32-byte list. -/
def sha256 (msg : List Nat) : List Nat :=
  ((chunksOf 64 (shaPad msg)).foldl shaCompress shaH0).flatMap wordToBytes

/-! ## HMAC (RFC 2104), models Python's `hmac.new(key, msg, hashlib.sha256)` -/

/-- HMAC-SHA256 keyed digest of a byte-list message. -/
def hmacSha256 (key msg : List Nat) : List Nat :=
  let key := if key.length > 64 then sha256 key else key
  let key := key ++ List.replicate (64 - key.length) 0
  let ipadKey := key.map (· ^^^ 0x36)
  let opadKey := key.map (· ^^^ 0x5c)
  sha256 (opadKey ++ sha256 (ipadKey ++ msg))

/-! ## Hex rendering, models `.hexdigest()` -/

/-- The sixteen lowercase hex digits. -/
def hexAlphabet : List Char := "0123456789abcdef".data

/-- The hex digit of a nibble. -/
def hexNibble (n : Nat) : Char := hexAlphabet.getD n '0'

/-- Lowercase hex rendering of a byte list (two digits per byte),
models Python's `.hexdigest()`. -/
def hexDigest (bs : List Nat) : String :=
  String.mk (bs.flatMap fun b => [hexNibble (b / 16 % 16), hexNibble (b % 16)])

/-! ## UTF-8 encoding, models Python's `str.encode('utf-8')` -/

/-- UTF-8 encoding of one code point. -/
def utf8Char (c : Char) : List Nat :=
  let n := c.toNat
  if n < 0x80 then [n]
  else if n < 0x800 then [0xc0 ||| n >>> 6, 0x80 ||| n &&& 0x3f]
  else if n < 0x10000 then
    [0xe0 ||| n >>> 12, 0x80 ||| (n >>> 6) &&& 0x3f, 0x80 ||| n &&& 0x3f]
  else
    [0xf0 ||| n >>> 18, 0x80 ||| (n >>> 12) &&& 0x3f,
     0x80 ||| (n >>> 6) &&& 0x3f, 0x80 ||| n &&& 0x3f]

/-- UTF-8 encoding of a string as a byte list. -/
def utf8Bytes (s : String) : List Nat := s.data.flatMap utf8Char

/-! ## The Signer: `IngestionSimulator.generate_hmac_signature`

```python
def generate_hmac_signature(self, body: str, timestamp: str) -> str:
    message = body + timestamp + self.device_id
    signature = hmac.new(
        self.hmac_secret.encode('utf-8'),
        message.encode('utf-8'),
        hashlib.sha256
    ).hexdigest()
    return signature
```
`self.hmac_secret` and `self.device_id` are passed explicitly. -/

/-- Embedding of `IngestionSimulator.generate_hmac_signature`. -/
def generate_hmac_signature (hmac_secret device_id body timestamp : String) : String :=
  let message := body ++ timestamp ++ device_id
  hexDigest (hmacSha256 (utf8Bytes hmac_secret) (utf8Bytes message))

/-! ## Python string helpers -/

/-- ASCII whitespace stripped by Python's `str.strip()` (the claims only
exercise ASCII data). -/
def isPySpace (c : Char) : Bool :=
  c = ' ' || c = '\t' || c = '\n' || c = '\x0d' || c = '\x0b' || c = '\x0c'

/-- Model of Python's `str.strip()`. -/
def pyStrip (s : String) : String :=
  String.mk (((s.data.dropWhile isPySpace).reverse.dropWhile isPySpace).reverse)

/-- Model of `s.replace('Z', '+00:00')` (single-character pattern, so a
per-character expansion is exact). -/
def replaceZ (s : String) : String :=
  String.mk (s.data.flatMap fun c => if c = 'Z' then "+00:00".data else [c])

/-- Remove every occurrence of a (non-empty) pattern, scanning left to
right, with explicit fuel (each step consumes at least one character, so
fuel `= length` never runs out). -/
def removeSubstrAux (pat : List Char) : Nat → List Char → List Char
  | 0, _ => []
  | _, [] => []
  | fuel + 1, c :: rest =>
    if pat.isPrefixOf (c :: rest) then
      removeSubstrAux pat fuel (rest.drop (pat.length - 1))
    else c :: removeSubstrAux pat fuel rest

/-- Remove every occurrence of a (non-empty) pattern, scanning left to
right: models Python's `str.replace(pat, '')`. -/
def removeSubstr (pat : List Char) (cs : List Char) : List Char :=
  removeSubstrAux pat cs.length cs

/-- Numeric value of a decimal digit list. -/
def digitsToNat (cs : List Char) : Nat :=
  cs.foldl (fun acc c => acc * 10 + (c.toNat - 48)) 0

/-! ## Python `float(str)` parsing

Models CPython's float constructor on the fragment the simulator's data
exercises: optional sign, decimal digits with an optional point, an
optional exponent, and the `inf`/`infinity`/`nan` spellings
(case-insensitive), with surrounding whitespace stripped.  (Digit-group
underscores are not modelled.)  Finite values are kept exactly, as a
decimal mantissa and scale: `finite m e` denotes `m / 10 ^ e`. -/

/-- A Python float value as the simulator observes it. -/
inductive PyFloat where
  | finite (mantissa : Int) (scale : Nat)
  | inf (pos : Bool)
  | nan
deriving DecidableEq, Repr

/-- Model of Python `float(s)`: `none` means `ValueError`. -/
def parseFloat? (s : String) : Option PyFloat :=
  let cs := (pyStrip s).data
  let (neg, cs) :=
    match cs with
    | '-' :: rest => (true, rest)
    | '+' :: rest => (false, rest)
    | _ => (false, cs)
  let low := cs.map Char.toLower
  if low = "inf".data || low = "infinity".data then some (.inf !neg)
  else if low = "nan".data then some .nan
  else
    let (intDigits, r1) := cs.span Char.isDigit
    let (fracDigits, r2) :=
      match r1 with
      | '.' :: rest => rest.span Char.isDigit
      | _ => ([], r1)
    if intDigits.isEmpty && fracDigits.isEmpty then none
    else
      let m : Int := (digitsToNat (intDigits ++ fracDigits) : Int)
      let m := if neg then -m else m
      let scale := fracDigits.length
      match r2 with
      | [] => some (.finite m scale)
      | e :: rest =>
        if e = 'e' || e = 'E' then
          let (eneg, rest) :=
            match rest with
            | '-' :: rest' => (true, rest')
            | '+' :: rest' => (false, rest')
            | _ => (false, rest)
          let (expDigits, r3) := rest.span Char.isDigit
          if expDigits.isEmpty || !r3.isEmpty then none
          else
            let ev := digitsToNat expDigits
            some (if eneg then .finite m (scale + ev)
                  else if ev ≤ scale then .finite m (scale - ev)
                  else .finite (m * (10 : Int) ^ (ev - scale)) 0)
        else none

/-! ## Python `uuid.UUID(str)` validation

CPython: `hex.replace('urn:', '').replace('uuid:', '')`, strip `{`/`}`
from both ends, remove `-`, require exactly 32 characters and a
successful base-16 parse (modelled as 32 hex digits). -/

/-- Hexadecimal digit test (both cases). -/
def isHexChar (c : Char) : Bool :=
  c.isDigit || ('a' ≤ c && c ≤ 'f') || ('A' ≤ c && c ≤ 'F')

/-- Model of `uuid.UUID(s)` succeeding. -/
def isValidUUID (s : String) : Bool :=
  let cs := removeSubstr "uuid:".data (removeSubstr "urn:".data s.data)
  let cs := (cs.dropWhile fun c => c = '\x7b' || c = '\x7d').reverse
  let cs := (cs.dropWhile fun c => c = '\x7b' || c = '\x7d').reverse
  let cs := cs.filter (· ≠ '-')
  cs.length = 32 && cs.all isHexChar

/-! ## `datetime.fromisoformat` (CPython ≤ 3.10 grammar)

The simulator always rewrites `Z` to `+00:00` before parsing.  The model
parses `YYYY-MM-DD`, optionally followed by one separator character and
`HH[:MM[:SS[.fff|.ffffff]]]`, optionally followed by a UTC offset
`±HH:MM[:SS[.ffffff]]` (the first `-`/`+` in the time part starts the
offset, and the offset text must be 5, 8 or 15 characters long).  The
result is the instant in microseconds since 1970-01-01 UTC; a datetime
without an offset is taken at face value (the simulator compares
like-with-like). -/

/-- Parse exactly two decimal digits. -/
def parse2Digits : List Char → Option (Nat × List Char)
  | a :: b :: rest =>
    if a.isDigit && b.isDigit then some ((a.toNat - 48) * 10 + (b.toNat - 48), rest)
    else none
  | _ => none

/-- Is a (proleptic Gregorian) year a leap year? -/
def isLeapYear (y : Nat) : Bool := y % 4 = 0 && (y % 100 ≠ 0 || y % 400 = 0)

/-- Number of days in a month. -/
def daysInMonth (y m : Nat) : Nat :=
  if m = 2 then (if isLeapYear y then 29 else 28)
  else if m = 4 || m = 6 || m = 9 || m = 11 then 30
  else 31

/-- Days since 1970-01-01 of a civil date (Hinnant's `days_from_civil`). -/
def daysFromCivil (y m d : Nat) : Int :=
  let y' : Int := if m ≤ 2 then (y : Int) - 1 else (y : Int)
  let era := y'.fdiv 400
  let yoe := y' - era * 400
  let mp : Int := ((m : Int) + 9) % 12
  let doy := (153 * mp + 2).fdiv 5 + (d : Int) - 1
  let doe := yoe * 365 + yoe.fdiv 4 - yoe.fdiv 100 + doy
  era * 146097 + doe - 719468

/-- Parse `HH[:MM[:SS[.fff|.ffffff]]]` (CPython's `_parse_hh_mm_ss_ff`),
consuming the whole input; returns `(hours, minutes, seconds, microseconds)`
without range validation (the caller validates). -/
def parseHMSF (cs : List Char) : Option (Nat × Nat × Nat × Nat) := do
  let (hh, r1) ← parse2Digits cs
  match r1 with
  | [] => some (hh, 0, 0, 0)
  | ':' :: r => do
    let (mm, r2) ← parse2Digits r
    match r2 with
    | [] => some (hh, mm, 0, 0)
    | ':' :: r' => do
      let (ss, r3) ← parse2Digits r'
      match r3 with
      | [] => some (hh, mm, ss, 0)
      | '.' :: fr =>
        if fr.all Char.isDigit then
          if fr.length = 3 then some (hh, mm, ss, digitsToNat fr * 1000)
          else if fr.length = 6 then some (hh, mm, ss, digitsToNat fr)
          else none
        else none
      | _ => none
    | _ => none
  | _ => none

/-- Model of `datetime.fromisoformat(s)` followed by conversion to an
instant: microseconds since the epoch, `none` meaning `ValueError`. -/
def parseInstant (s : String) : Option Int := do
  let cs := s.data
  match cs with
  | y1 :: y2 :: y3 :: y4 :: '-' :: rest => do
    if !(y1.isDigit && y2.isDigit && y3.isDigit && y4.isDigit) then none
    else do
      let y := digitsToNat [y1, y2, y3, y4]
      let (m, rest) ← parse2Digits rest
      match rest with
      | '-' :: rest => do
        let (d, rest) ← parse2Digits rest
        if y < 1 || m < 1 || m > 12 || d < 1 || d > daysInMonth y m then none
        else
          let dateUs : Int := daysFromCivil y m d * 86400000000
          match rest with
          | [] => some dateUs
          | _ :: tcs =>
            -- one arbitrary separator character, then the time string
            let tzIdx :=
              match tcs.findIdx? (· = '-') with
              | some i => some i
              | none => tcs.findIdx? (· = '+')
            let (timeCs, tz?) :=
              match tzIdx with
              | none => (tcs, none)
              | some i => (tcs.take i, some (tcs.getD i ' ', tcs.drop (i + 1)))
            do
              let (hh, mi, ss, us) ← parseHMSF timeCs
              if hh ≥ 24 || mi ≥ 60 || ss ≥ 60 then none
              else do
                let offsetUs : Int ←
                  match tz? with
                  | none => some 0
                  | some (sgn, tzCs) =>
                    if tzCs.length = 5 || tzCs.length = 8 || tzCs.length = 15 then do
                      let (th, tm, ts, tus) ← parseHMSF tzCs
                      let mag : Int := ((th * 3600 + tm * 60 + ts) * 1000000 + tus : Nat)
                      if mag ≥ 86400000000 then none
                      else some (if sgn = '-' then -mag else mag)
                    else none
                some (dateUs + ((hh * 3600 + mi * 60 + ss) * 1000000 + us : Nat) - offsetUs)
      | _ => none
  | _ => none

/-! ## Readings and the JSON body

`load_csv_data` builds `{'ts': ..., 'sensor_id': ..., 'value': float}`
dicts in that key order; `send_readings` serializes
`{"readings": [...]}` with `json.dumps(..., separators=(',', ':'))`. -/

/-- One loaded reading. -/
structure Reading where
  ts : String
  sensor_id : String
  value : PyFloat
deriving DecidableEq, Repr

/-- Placeholder for indexing into a batch; batches produced by the
scheduler are never empty, so it is never observed. -/
def defaultReading : Reading := ⟨"", "", .nan⟩

/-- JSON escape of one character (CPython `json.dumps` with the default
`ensure_ascii=True`). -/
def jsonEscapeChar (c : Char) : List Char :=
  if c = '"' then ['\\', '"']
  else if c = '\\' then ['\\', '\\']
  else if c = '\x08' then ['\\', 'b']
  else if c = '\x0c' then ['\\', 'f']
  else if c = '\n' then ['\\', 'n']
  else if c = '\x0d' then ['\\', 'r']
  else if c = '\t' then ['\\', 't']
  else if c.toNat < 0x20 || c.toNat > 0x7e then
    if c.toNat < 0x10000 then
      '\\' :: 'u' :: ((List.range 4).map fun i => hexNibble (c.toNat / 16 ^ (3 - i) % 16))
    else  -- UTF-16 surrogate pair
      let v := c.toNat - 0x10000
      let hi := 0xd800 + v / 0x400
      let lo := 0xdc00 + v % 0x400
      ('\\' :: 'u' :: ((List.range 4).map fun i => hexNibble (hi / 16 ^ (3 - i) % 16))) ++
      ('\\' :: 'u' :: ((List.range 4).map fun i => hexNibble (lo / 16 ^ (3 - i) % 16)))
  else [c]

/-- JSON string literal. -/
def jsonString (s : String) : String :=
  "\"" ++ String.mk (s.data.flatMap jsonEscapeChar) ++ "\""

/-- Drop trailing decimal zeros: `(m, e)` with `m / 10 ^ e` unchanged
and either `e = 0` or `m` not divisible by 10. -/
def trimZeros : Int → Nat → Int × Nat
  | m, 0 => (m, 0)
  | m, e + 1 => if m % 10 = 0 then trimZeros (m / 10) e else (m, e + 1)

/-- Exact decimal rendering of `m / 10 ^ e`; models `repr(float)` on the
decimal fragment the simulator's data exercises (shortest digits, always
a decimal point). -/
def renderFinite (m : Int) (e : Nat) : String :=
  let p := trimZeros m e
  let digits := toString p.1.natAbs
  let digits := List.replicate (p.2 + 1 - digits.length) '0' ++ digits.data
  let intPart := String.mk (digits.take (digits.length - p.2))
  let fracPart := String.mk (digits.drop (digits.length - p.2))
  (if p.1 < 0 then "-" else "") ++ intPart ++ "." ++ (if p.2 = 0 then "0" else fracPart)

/-- JSON rendering of a Python float (CPython renders the specials as
`Infinity` / `-Infinity` / `NaN`). -/
def renderPyFloat : PyFloat → String
  | .finite m e => renderFinite m e
  | .inf pos => if pos then "Infinity" else "-Infinity"
  | .nan => "NaN"

/-- One serialized reading object, keys in dict insertion order. -/
def serializeReading (r : Reading) : String :=
  "\x7b\"ts\":" ++ jsonString r.ts ++ ",\"sensor_id\":" ++ jsonString r.sensor_id ++
    ",\"value\":" ++ renderPyFloat r.value ++ "\x7d"

/-- Serialization of the payload:
`json.dumps({"readings": readings}, separators=(',', ':'))`. -/
def json_dumps_payload (readings : List Reading) : String :=
  "\x7b\"readings\":[" ++ String.intercalate "," (readings.map serializeReading) ++ "]\x7d"

/-! ## `IngestionSimulator.send_readings` (request construction)

The network call itself and `utcnow()` / `uuid4()` are ambient effects;
the embedding takes the timestamp and idempotency key as arguments and
returns the request that is posted. -/

/-- The outgoing HTTP request built by `send_readings`. -/
structure HttpRequest where
  url : String
  body : String
  contentType : String
  xTimestamp : String
  xDeviceId : String
  xSignature : String
  idempotencyKey : String
deriving DecidableEq, Repr

/-- Embedding of the request-construction part of
`IngestionSimulator.send_readings`: serialize the payload once, sign
that string, and post that same string as the body. -/
def send_readings_request (api_url hmac_secret device_id : String)
    (readings : List Reading) (timestamp idempotency_key : String) : HttpRequest :=
  let body := json_dumps_payload readings
  let signature := generate_hmac_signature hmac_secret device_id body timestamp
  { url := api_url ++ "/api/ingest/readings"
    body := body
    contentType := "application/json"
    xTimestamp := timestamp
    xDeviceId := device_id
    xSignature := signature
    idempotencyKey := idempotency_key }

/-! ## `IngestionSimulator.load_csv_data`

A CSV source is modelled as its header (`reader.fieldnames`) plus the
rows, each row giving the text of the three relevant columns
(`csv.DictReader` supplies every header key for every row). -/

/-- One CSV row's relevant fields, as raw text. -/
structure CsvRow where
  timestamp : String
  sensor_id : String
  temperature_c : String
deriving DecidableEq, Repr

/-- A CSV source: header plus rows. -/
structure CsvData where
  fieldnames : List String
  rows : List CsvRow
deriving Repr

/-- Which per-row check failed (selects the warning message printed). -/
inductive WarnKind where
  | invalidRow        -- `float()` raised: "Skipping invalid row"
  | invalidTimestamp  -- "Invalid timestamp format in row"
  | invalidSensorId   -- "Invalid sensor ID format in row"
deriving DecidableEq, Repr

/-- A skipped-row warning: row number (starting at 2) and kind. -/
structure RowWarning where
  row_num : Nat
  kind : WarnKind
deriving DecidableEq, Repr

/-- The columns `load_csv_data` requires. -/
def requiredColumns : List String := ["timestamp", "sensor_id", "temperature_c"]

/-- The per-row body of the `load_csv_data` loop: parse the value as a
float first (a failure is caught by the generic row handler), then
validate the timestamp, then the sensor id. -/
def loadRow (row_num : Nat) (row : CsvRow) : Except RowWarning Reading :=
  let timestamp_str := pyStrip row.timestamp
  let sensor_id := pyStrip row.sensor_id
  match parseFloat? row.temperature_c with
  | none => .error ⟨row_num, .invalidRow⟩
  | some temperature =>
    if (parseInstant (replaceZ timestamp_str)).isNone then
      .error ⟨row_num, .invalidTimestamp⟩
    else if !isValidUUID sensor_id then
      .error ⟨row_num, .invalidSensorId⟩
    else
      .ok ⟨timestamp_str, sensor_id, temperature⟩

/-- The row loop of `load_csv_data`, numbering rows from `row_num`. -/
def loadRows (row_num : Nat) : List CsvRow → List Reading × List RowWarning
  | [] => ([], [])
  | row :: rest =>
    let tail := loadRows (row_num + 1) rest
    match loadRow row_num row with
    | .ok r => (r :: tail.1, tail.2)
    | .error w => (tail.1, w :: tail.2)

/-- Embedding of `IngestionSimulator.load_csv_data`: abort if a required
column is absent, otherwise run the row loop (data rows are numbered
from 2, the header being row 1); returns the readings together with the
warnings the loop printed. -/
def load_csv_data (csv : CsvData) : Except String (List Reading × List RowWarning) :=
  if requiredColumns.all (fun c => csv.fieldnames.contains c) then
    .ok (loadRows 2 csv.rows)
  else
    .error "CSV must contain columns: timestamp, sensor_id, temperature_c"

/-! ## Sorting and batching inside `simulate_ingestion` -/

/-- Lexicographic code-point order on character lists: Python `<=` on
strings. -/
def charListLe : List Char → List Char → Bool
  | [], _ => true
  | _ :: _, [] => false
  | a :: as, b :: bs =>
    if a.toNat < b.toNat then true
    else if b.toNat < a.toNat then false
    else charListLe as bs

/-- Python string `<=` (code-point lexicographic). -/
def strLe (a b : String) : Bool := charListLe a.data b.data

/-- The sort key relation of `readings.sort(key=lambda x: x['ts'])`:
Python compares the raw `ts` strings. -/
def tsLe (a b : Reading) : Prop := strLe a.ts b.ts = true

instance : DecidableRel tsLe := fun a b => by
  unfold tsLe
  infer_instance

/-- Embedding of `readings.sort(key=lambda x: x['ts'])`: Python's sort
is a stable sort keyed by the raw timestamp string, modelled by the
(equally stable, hence pointwise equal) insertion sort. -/
def sortReadings (readings : List Reading) : List Reading :=
  List.insertionSort tsLe readings

/-- The instant of a reading's timestamp as the scheduler computes it:
`datetime.fromisoformat(ts.replace('Z', '+00:00'))`.  Loaded readings
always parse (the loader validated them); `getD 0` keeps the model
total. -/
def instantOfTs (ts : String) : Int := (parseInstant (replaceZ ts)).getD 0

/-- Embedding of `for i in range(0, len(readings), batch_size):
batch = readings[i:i + batch_size]`: consecutive slices for a positive
step; a negative step makes the `range` empty.  (A zero step raises
`ValueError`; `simulate_ingestion` surfaces that before calling this.) -/
def pyBatches (l : List α) (batch_size : Int) : List (List α) :=
  if 0 < batch_size then chunksOf batch_size.toNat l else []

/-! ## The batch loop of `simulate_ingestion`

The network is abstracted as an oracle giving the `send_readings`
outcome for the k-th batch; the loop folds outcomes into the counters,
records the sleeps it performs, and tracks `last_timestamp`. -/

/-- The fields of the `send_readings` result dict that the statistics
fold reads: `status_code` (0 on a transport failure) and the optional
`processed` / `errors` members of the parsed response body. -/
structure IngestResponse where
  processed? : Option Int
  errors? : Option (List String)
deriving DecidableEq, Repr

/-- One normalized transport outcome. -/
structure TransportResult where
  status_code : Int
  response : IngestResponse
deriving DecidableEq, Repr

/-- The loop state of `simulate_ingestion`: the two counters,
`last_timestamp`, plus the observable event log (sleeps performed,
number of batches sent). -/
structure LoopState where
  total_sent : Int
  total_errors : Int
  last_timestamp : Option String
  sleeps : List ℚ
  sends : Nat
deriving DecidableEq, Repr

/-- State before the first batch. -/
def initialLoopState : LoopState := ⟨0, 0, none, [], 0⟩

/-- The sleep the loop performs before a batch, if any:
`if last_timestamp and speed > 0: delay = max(0, diff / speed);
if delay > 0: time.sleep(delay)` with
`diff = (batch[0].ts - last_timestamp).total_seconds()`.
(`last_timestamp`, when set, is a loaded reading's timestamp, hence
non-empty, so Python's truthiness test is the `Option` test.) -/
def sleepFor (speed : ℚ) (last_timestamp : Option String) (batch : List Reading) : Option ℚ :=
  match last_timestamp with
  | none => none
  | some lastTs =>
    if speed > 0 then
      let current_time := instantOfTs (batch.headD defaultReading).ts
      let last_time := instantOfTs lastTs
      let time_diff : ℚ := (current_time - last_time : Int) / 1000000
      let delay := max 0 (time_diff / speed)
      if delay > 0 then some delay else none
    else none

/-- One iteration of the batch loop: sleep if due, send (outcome given
by `result`), fold the outcome into the counters
(`status_code == 200` → add `response.get('processed', 0)` and, when an
`errors` list is present, its length; otherwise → add the batch size),
then set `last_timestamp = batch[-1]['ts']`. -/
def stepBatch (speed : ℚ) (result : TransportResult) (st : LoopState)
    (batch : List Reading) : LoopState :=
  let sleeps :=
    match sleepFor speed st.last_timestamp batch with
    | some d => st.sleeps ++ [d]
    | none => st.sleeps
  let counters :=
    if result.status_code = 200 then
      let processed := result.response.processed?.getD 0
      let errAdd : Int :=
        match result.response.errors? with
        | some es => (es.length : Int)
        | none => 0
      (st.total_sent + processed, st.total_errors + errAdd)
    else
      (st.total_sent, st.total_errors + (batch.length : Int))
  { total_sent := counters.1
    total_errors := counters.2
    last_timestamp := some (batch.getLastD defaultReading).ts
    sleeps := sleeps
    sends := st.sends + 1 }

/-- The batch loop, from a given state and batch index. -/
def runBatchesFrom (speed : ℚ) (oracle : Nat → TransportResult) (st : LoopState)
    (idx : Nat) : List (List Reading) → LoopState
  | [] => st
  | batch :: rest =>
    runBatchesFrom speed oracle (stepBatch speed (oracle idx) st batch) (idx + 1) rest

/-- The whole batch loop of `simulate_ingestion`. -/
def runBatches (speed : ℚ) (oracle : Nat → TransportResult)
    (batches : List (List Reading)) : LoopState :=
  runBatchesFrom speed oracle initialLoopState 0 batches

/-! ## `IngestionSimulator.simulate_ingestion` -/

/-- How a `simulate_ingestion` run can abort (uncaught exceptions). -/
inductive SimError where
  | loadError (msg : String)   -- raised by `load_csv_data`
  | valueError (msg : String)  -- `fromisoformat` on a bad bound, or `range()` with step 0
  | indexError                 -- `readings[0]` on an empty list
deriving DecidableEq, Repr

/-- Observable outcome of a completed run. -/
structure SimResult where
  total_sent : Int
  total_errors : Int
  sleeps : List ℚ
  sends : Nat
deriving DecidableEq, Repr

/-- Embedding of `IngestionSimulator.simulate_ingestion`: load, return
early if no readings were loaded, filter by the optional inclusive
bounds, sort by the raw timestamp string, print the time range (which
indexes `readings[0]` — an `IndexError` when the filters removed every
reading), then slice into batches (`range` raises on a zero step) and
run the loop. -/
def simulate_ingestion (csv : CsvData) (speed : ℚ)
    (start_time end_time : Option String) (batch_size : Int)
    (oracle : Nat → TransportResult) : Except SimError SimResult := do
  let loaded ← (load_csv_data csv).mapError SimError.loadError
  let readings := loaded.1
  if readings.isEmpty then
    return ⟨0, 0, [], 0⟩  -- "No valid readings found in CSV file."
  let readings ←
    match start_time with
    | none => pure readings
    | some st =>
      match parseInstant (replaceZ st) with
      | none => throw (.valueError "Invalid isoformat string")
      | some start_dt => pure (readings.filter fun r => start_dt ≤ instantOfTs r.ts)
  let readings ←
    match end_time with
    | none => pure readings
    | some et =>
      match parseInstant (replaceZ et) with
      | none => throw (.valueError "Invalid isoformat string")
      | some end_dt => pure (readings.filter fun r => instantOfTs r.ts ≤ end_dt)
  let readings := sortReadings readings
  if readings.isEmpty then
    throw .indexError  -- `readings[0]['ts']` in the time-range print
  if batch_size = 0 then
    throw (.valueError "range() arg 3 must not be zero")
  let st := runBatches speed oracle (pyBatches readings batch_size)
  return ⟨st.total_sent, st.total_errors, st.sleeps, st.sends⟩

/-! ## Helper lemmas -/

theorem utf8Bytes_append (s t : String) :
    utf8Bytes (s ++ t) = utf8Bytes s ++ utf8Bytes t := by
  simp [utf8Bytes, String.data_append, List.flatMap_append]

theorem hexNibble_mem (n : Nat) : hexNibble n ∈ hexAlphabet := by
  rcases Nat.lt_or_ge n 16 with h | h
  · unfold hexNibble
    interval_cases n <;> decide
  · unfold hexNibble
    rw [List.getD_eq_default _ _ (le_trans (by decide) h)]
    decide

theorem hexDigest_mem (bs : List Nat) (c : Char) (hc : c ∈ (hexDigest bs).data) :
    c ∈ hexAlphabet := by
  have hc' : c ∈ bs.flatMap fun b => [hexNibble (b / 16 % 16), hexNibble (b % 16)] := hc
  rcases List.mem_flatMap.mp hc' with ⟨b, -, hcb⟩
  simp only [List.mem_cons, List.mem_singleton, List.not_mem_nil, or_false] at hcb
  rcases hcb with h | h <;> (subst h; exact hexNibble_mem _)

/-! ## C1 -/

/-- C1: the Signer's output is the lowercase hexadecimal rendering of
HMAC-SHA256, keyed by the pre-shared secret, over the separator-free
concatenation `body ++ timestamp ++ device_id`; every character of the
output is a lowercase hex digit, and the function is pure and
deterministic (identical inputs give the identical signature). -/
theorem C1_signer_hmac (hmac_secret device_id body timestamp : String) :
    generate_hmac_signature hmac_secret device_id body timestamp
      = hexDigest (hmacSha256 (utf8Bytes hmac_secret)
          (utf8Bytes body ++ utf8Bytes timestamp ++ utf8Bytes device_id)) ∧
    (∀ c ∈ (generate_hmac_signature hmac_secret device_id body timestamp).data,
        c ∈ hexAlphabet) ∧
    generate_hmac_signature hmac_secret device_id body timestamp
      = generate_hmac_signature hmac_secret device_id body timestamp := by
  refine ⟨?_, ?_, rfl⟩
  · show hexDigest (hmacSha256 (utf8Bytes hmac_secret)
        (utf8Bytes (body ++ timestamp ++ device_id))) = _
    rw [utf8Bytes_append, utf8Bytes_append]
  · intro c hc
    exact hexDigest_mem _ c hc

/-! ## C2 -/

/-- C2: the `X-Signature` value of the request built by `send_readings`
is computed over exactly the string transmitted as the request body,
which is the payload serialized once; no re-serialization happens
between signing and sending. -/
theorem C2_sign_exact_sent_body (api_url hmac_secret device_id : String)
    (readings : List Reading) (timestamp idempotency_key : String) :
    (send_readings_request api_url hmac_secret device_id readings timestamp
        idempotency_key).body
      = json_dumps_payload readings ∧
    (send_readings_request api_url hmac_secret device_id readings timestamp
        idempotency_key).xSignature
      = generate_hmac_signature hmac_secret device_id
          (send_readings_request api_url hmac_secret device_id readings timestamp
            idempotency_key).body
          timestamp :=
  ⟨rfl, rfl⟩

/-! ## Batching lemmas (for C7) -/

theorem chunksOf_flatten (n : Nat) (hn : 0 < n) :
    (l : List α) → (chunksOf n l).flatten = l
  | [] => by simp [chunksOf]
  | a :: l => by
    rw [chunksOf, if_neg (Nat.pos_iff_ne_zero.mp hn), List.flatten_cons,
      chunksOf_flatten n hn ((a :: l).drop n), List.take_append_drop]
termination_by l => l.length
decreasing_by
  simp only [List.length_drop, List.length_cons]
  omega

theorem chunksOf_mem_length (n : Nat) :
    (l : List α) → ∀ b ∈ chunksOf n l, b.length ≤ n
  | [] => by simp [chunksOf]
  | a :: l => by
    rw [chunksOf]
    split
    · simp
    · intro b hb
      rcases List.mem_cons.mp hb with h | h
      · subst h
        simp [List.length_take]
      · exact chunksOf_mem_length n ((a :: l).drop n) b h
termination_by l => l.length
decreasing_by
  simp only [List.length_drop, List.length_cons]
  omega

theorem chunksOf_single (n : Nat) (l : List α) (hne : l ≠ []) (hlen : l.length ≤ n) :
    chunksOf n l = [l] := by
  match l with
  | [] => exact absurd rfl hne
  | a :: l =>
    have hn : n ≠ 0 := by
      intro h
      subst h
      simp at hlen
    rw [chunksOf, if_neg hn, List.take_of_length_le hlen, List.drop_eq_nil_of_le hlen,
      chunksOf]

/-! ## C7 -/

/-- C7: for a positive batch size, the scheduler's batching is an exact
partition: the batches concatenate back to the input sequence (each
reading exactly once), each batch has at most `batch_size` readings, and
when the batch size is at least the (non-zero) number of readings there
is exactly one batch. -/
theorem C7_batching_partition (l : List Reading) (batch_size : Int)
    (h : 0 < batch_size) :
    (pyBatches l batch_size).flatten = l ∧
    (∀ b ∈ pyBatches l batch_size, b.length ≤ batch_size.toNat) ∧
    (l ≠ [] → (l.length : Int) ≤ batch_size → (pyBatches l batch_size).length = 1) := by
  have hpos : 0 < batch_size.toNat := by omega
  refine ⟨?_, ?_, ?_⟩
  · rw [pyBatches, if_pos h]
    exact chunksOf_flatten _ hpos l
  · rw [pyBatches, if_pos h]
    exact chunksOf_mem_length _ l
  · intro hne hlen
    rw [pyBatches, if_pos h, chunksOf_single batch_size.toNat l hne (by omega)]
    rfl

/-- Witness for C7 at concrete inputs: three readings with batch size 2
flatten back, and two readings with batch size 5 form a single batch. -/
theorem C7_batching_partition_witness :
    (pyBatches [defaultReading, defaultReading, defaultReading] 2).flatten
      = [defaultReading, defaultReading, defaultReading] ∧
    (pyBatches [defaultReading, defaultReading] 5).length = 1 :=
  ⟨(C7_batching_partition [defaultReading, defaultReading, defaultReading] 2
      (by decide)).1,
   (C7_batching_partition [defaultReading, defaultReading] 5 (by decide)).2.2
      (by decide) (by decide)⟩

/-! ## Run-loop lemmas (for C3, C4, C10) -/

/-- The per-batch statistics contribution as the spec words it, with the
amendment that acceptance is HTTP status exactly 200 (not any 2xx):
`(added to the success total, added to the error total)`. -/
def specContribution (result : TransportResult) (batch : List Reading) : Int × Int :=
  if result.status_code = 200 then
    (result.response.processed?.getD 0,
     ((result.response.errors?.map List.length).getD 0 : Nat))
  else
    (0, (batch.length : Int))

theorem stepBatch_total_sent (speed : ℚ) (result : TransportResult)
    (st : LoopState) (batch : List Reading) :
    (stepBatch speed result st batch).total_sent
      = st.total_sent + (specContribution result batch).1 := by
  rw [stepBatch, specContribution]
  split
  · rfl
  · simp

theorem stepBatch_total_errors (speed : ℚ) (result : TransportResult)
    (st : LoopState) (batch : List Reading) :
    (stepBatch speed result st batch).total_errors
      = st.total_errors + (specContribution result batch).2 := by
  rw [stepBatch, specContribution]
  split
  · rcases result.response.errors? with _ | es <;> simp
  · rfl

theorem runBatchesFrom_totals (speed : ℚ) (oracle : Nat → TransportResult) :
    (batches : List (List Reading)) → ∀ (st : LoopState) (idx : Nat),
    (runBatchesFrom speed oracle st idx batches).total_sent
      = st.total_sent
        + ((batches.enumFrom idx).map
            fun p => (specContribution (oracle p.1) p.2).1).sum ∧
    (runBatchesFrom speed oracle st idx batches).total_errors
      = st.total_errors
        + ((batches.enumFrom idx).map
            fun p => (specContribution (oracle p.1) p.2).2).sum
  | [], st, idx => by simp [runBatchesFrom, List.enumFrom]
  | b :: rest, st, idx => by
    have ih := runBatchesFrom_totals speed oracle rest
      (stepBatch speed (oracle idx) st b) (idx + 1)
    rw [runBatchesFrom]
    rw [List.enumFrom_cons]
    simp only [List.map_cons, List.sum_cons]
    constructor
    · rw [ih.1, stepBatch_total_sent]
      ring
    · rw [ih.2, stepBatch_total_errors]
      ring

theorem runBatchesFrom_sends (speed : ℚ) (oracle : Nat → TransportResult) :
    (batches : List (List Reading)) → ∀ (st : LoopState) (idx : Nat),
    (runBatchesFrom speed oracle st idx batches).sends = st.sends + batches.length
  | [], st, idx => by simp [runBatchesFrom]
  | b :: rest, st, idx => by
    rw [runBatchesFrom, runBatchesFrom_sends speed oracle rest _ (idx + 1)]
    simp [stepBatch]
    omega

/-! ## C3 (corrected: acceptance is status exactly 200, not any 2xx) -/

/-- Counterexample to C3 as stated: an HTTP **201** response (a 2xx
status) reporting `processed = 2` and an empty `errors` list for a batch
of 3 readings is folded as a rejection — the code adds 0 to the success
total and the full batch size 3 to the error total, not +2 success /
+0 error as the claim's 2xx clause requires. -/
theorem C3_counterexample_2xx :
    (stepBatch 1 ⟨201, some 2, some []⟩ initialLoopState
      [defaultReading, defaultReading, defaultReading]).total_sent = 0 ∧
    (stepBatch 1 ⟨201, some 2, some []⟩ initialLoopState
      [defaultReading, defaultReading, defaultReading]).total_errors = 3 ∧
    ¬((stepBatch 1 ⟨201, some 2, some []⟩ initialLoopState
      [defaultReading, defaultReading, defaultReading]).total_sent = 2) := by
  refine ⟨rfl, rfl, ?_⟩
  decide

/-- C3 (amended): over a whole run, a batch whose outcome has HTTP
status exactly 200 adds the server-reported `processed` count to the
success total and the length of any `errors` list to the error total
(so status 200 with `processed = 2` and one error for a batch of 3 adds
+2 success and +1 error); every other outcome — any non-200 status,
including other 2xx codes and transport failures (status 0) — adds the
full batch size to the error total. -/
theorem C3_statistics_fold (speed : ℚ) (oracle : Nat → TransportResult)
    (batches : List (List Reading)) :
    (runBatches speed oracle batches).total_sent
      = ((batches.enum.map fun p => (specContribution (oracle p.1) p.2).1).sum) ∧
    (runBatches speed oracle batches).total_errors
      = ((batches.enum.map fun p => (specContribution (oracle p.1) p.2).2).sum) ∧
    (stepBatch speed ⟨200, some 2, some ["bad value"]⟩ initialLoopState
      [defaultReading, defaultReading, defaultReading]).total_sent = 2 ∧
    (stepBatch speed ⟨200, some 2, some ["bad value"]⟩ initialLoopState
      [defaultReading, defaultReading, defaultReading]).total_errors = 1 := by
  have h := runBatchesFrom_totals speed oracle batches initialLoopState 0
  refine ⟨?_, ?_, rfl, rfl⟩
  · rw [runBatches, h.1]
    simp [initialLoopState, List.enum]
  · rw [runBatches, h.2]
    simp [initialLoopState, List.enum]

/-! ## Delay lemmas (for C4) -/

/-- The sleeps the claim predicts for a batch list: none before the
first batch; before each later batch the delay
`(instant of its first reading − instant of the previous batch's last
reading) / speed` (instants in seconds), slept exactly when `speed > 0`
and that delay is positive. -/
def specDelays (speed : ℚ) : List (List Reading) → List ℚ
  | [] => []
  | [_] => []
  | prev :: cur :: rest =>
    let d : ℚ := ((instantOfTs (cur.headD defaultReading).ts
        - instantOfTs (prev.getLastD defaultReading).ts : Int) : ℚ) / 1000000 / speed
    if speed > 0 ∧ 0 < d then d :: specDelays speed (cur :: rest)
    else specDelays speed (cur :: rest)

/-- The sleeps the loop performs, as a recursion on the batch list
threading only `last_timestamp`. -/
def sleepsAux (speed : ℚ) (lastTs : Option String) : List (List Reading) → List ℚ
  | [] => []
  | b :: rest =>
    let tail := sleepsAux speed (some (b.getLastD defaultReading).ts) rest
    match sleepFor speed lastTs b with
    | some d => d :: tail
    | none => tail

theorem sleepFor_some (speed : ℚ) (t : String) (batch : List Reading) :
    sleepFor speed (some t) batch
      = (if speed > 0 ∧ 0 < ((instantOfTs (batch.headD defaultReading).ts
            - instantOfTs t : Int) : ℚ) / 1000000 / speed
         then some (((instantOfTs (batch.headD defaultReading).ts
            - instantOfTs t : Int) : ℚ) / 1000000 / speed)
         else none) := by
  simp only [sleepFor]
  by_cases hs : speed > 0
  · rw [if_pos hs]
    by_cases hd : (0 : ℚ) < ((instantOfTs (batch.headD defaultReading).ts
        - instantOfTs t : Int) : ℚ) / 1000000 / speed
    · rw [max_eq_right (le_of_lt hd), if_pos hd, if_pos (And.intro hs hd)]
    · rw [max_eq_left (le_of_not_lt hd), if_neg (lt_irrefl (0 : ℚ)),
        if_neg (fun h => hd h.2)]
  · rw [if_neg hs, if_neg (fun h => hs h.1)]

theorem runBatchesFrom_sleeps (speed : ℚ) (oracle : Nat → TransportResult) :
    (batches : List (List Reading)) → ∀ (st : LoopState) (idx : Nat),
    (runBatchesFrom speed oracle st idx batches).sleeps
      = st.sleeps ++ sleepsAux speed st.last_timestamp batches
  | [], st, idx => by simp [runBatchesFrom, sleepsAux]
  | b :: rest, st, idx => by
    rw [runBatchesFrom,
      runBatchesFrom_sleeps speed oracle rest (stepBatch speed (oracle idx) st b) (idx + 1),
      sleepsAux]
    show (stepBatch speed (oracle idx) st b).sleeps ++
        sleepsAux speed (stepBatch speed (oracle idx) st b).last_timestamp rest = _
    rw [stepBatch]
    rcases h : sleepFor speed st.last_timestamp b with _ | d <;>
      simp [h, List.append_assoc]

theorem sleepsAux_spec (speed : ℚ) :
    (batches : List (List Reading)) → ∀ (b₀ : List Reading),
    sleepsAux speed (some (b₀.getLastD defaultReading).ts) batches
      = specDelays speed (b₀ :: batches)
  | [], b₀ => by simp [sleepsAux, specDelays]
  | b :: rest, b₀ => by
    have ih := sleepsAux_spec speed rest b
    simp only [sleepsAux]
    rw [sleepFor_some, ih, specDelays]
    by_cases hc : speed > 0 ∧ 0 < ((instantOfTs (b.headD defaultReading).ts
        - instantOfTs (b₀.getLastD defaultReading).ts : Int) : ℚ) / 1000000 / speed
    · rw [if_pos hc, if_pos hc]
    · rw [if_neg hc, if_neg hc]

/-! ## C4 -/

/-- C4: the first batch is sent with no preceding delay; before each
later batch the loop sleeps exactly when `speed > 0` and the delay
`(instant of the batch's first reading − instant of the previous
batch's last reading) / speed` is positive, and then for exactly that
duration (`specDelays`); when `speed ≤ 0` no sleep ever occurs, and the
run still completes, sending every batch. -/
theorem C4_interbatch_delays (speed : ℚ) (oracle : Nat → TransportResult)
    (batches : List (List Reading)) :
    (runBatches speed oracle batches).sleeps = specDelays speed batches ∧
    (speed ≤ 0 → (runBatches speed oracle batches).sleeps = []) ∧
    (runBatches speed oracle batches).sends = batches.length := by
  have hmain : (runBatches speed oracle batches).sleeps = specDelays speed batches := by
    rw [runBatches, runBatchesFrom_sleeps speed oracle batches initialLoopState 0]
    show [] ++ sleepsAux speed none batches = _
    rw [List.nil_append]
    match batches with
    | [] => rw [sleepsAux, specDelays]
    | b :: rest =>
      rw [sleepsAux]
      show sleepsAux speed (some (b.getLastD defaultReading).ts) rest = _
      exact sleepsAux_spec speed rest b
  refine ⟨hmain, fun hle => ?_, ?_⟩
  · rw [hmain]
    clear hmain
    induction batches with
    | nil => rw [specDelays]
    | cons b rest ih =>
      match rest, ih with
      | [], _ => rw [specDelays]
      | c :: rest', ih =>
        rw [specDelays, if_neg (fun h => absurd h.1 (not_lt.mpr hle))]
        exact ih
  · rw [runBatches, runBatchesFrom_sends speed oracle batches initialLoopState 0]
    rw [initialLoopState]
    simp

/-- Witness for C4 at a concrete input: with `speed = -1` (≤ 0) and two
one-reading batches an hour apart, no sleep is performed. -/
theorem C4_interbatch_delays_witness :
    (runBatches (-1) (fun _ => ⟨200, some 1, none⟩)
      (pyBatches [⟨"2024-01-01T00:00:00Z", "", .finite 1 0⟩,
                  ⟨"2024-01-01T01:00:00Z", "", .finite 2 0⟩] 1)).sleeps = [] :=
  (C4_interbatch_delays (-1) (fun _ => ⟨200, some 1, none⟩)
    (pyBatches [⟨"2024-01-01T00:00:00Z", "", .finite 1 0⟩,
                ⟨"2024-01-01T01:00:00Z", "", .finite 2 0⟩] 1)).2.1 (by norm_num)

/-! ## C10 -/

/-- C10: a 200 outcome whose body lacks `processed` adds 0 to the
success total (whatever the `errors` field holds), a 200 outcome whose
body lacks `errors` adds 0 to the error total (whatever `processed`
holds), and the loop always continues to completion, sending every
batch. -/
theorem C10_missing_response_fields (speed : ℚ) (oracle : Nat → TransportResult)
    (batches : List (List Reading)) :
    (∀ (st : LoopState) (batch : List Reading) (errs : Option (List String)),
      (stepBatch speed ⟨200, none, errs⟩ st batch).total_sent = st.total_sent) ∧
    (∀ (st : LoopState) (batch : List Reading) (p : Option Int),
      (stepBatch speed ⟨200, p, none⟩ st batch).total_errors = st.total_errors) ∧
    (runBatches speed oracle batches).sends = batches.length := by
  refine ⟨?_, ?_, ?_⟩
  · intro st batch errs
    rw [stepBatch_total_sent]
    simp [specContribution]
  · intro st batch p
    rw [stepBatch_total_errors]
    simp [specContribution]
  · rw [runBatches, runBatchesFrom_sends speed oracle batches initialLoopState 0]
    rw [initialLoopState]
    simp

/-! ## String-order lemmas (for C8) -/

theorem charListLe_total : (as bs : List Char) →
    (charListLe as bs || charListLe bs as) = true
  | [], [] => rfl
  | [], _ :: _ => rfl
  | _ :: _, [] => rfl
  | a :: as, b :: bs => by
    simp only [charListLe]
    by_cases h1 : a.toNat < b.toNat
    · simp [h1]
    · by_cases h2 : b.toNat < a.toNat
      · simp [h1, h2]
      · simp only [h1, h2, if_false]
        exact charListLe_total as bs

theorem charListLe_trans : (as bs cs : List Char) →
    charListLe as bs = true → charListLe bs cs = true → charListLe as cs = true
  | [], _, _, _, _ => rfl
  | _ :: _, [], _, h1, _ => by simp [charListLe] at h1
  | _ :: _, _ :: _, [], _, h2 => by simp [charListLe] at h2
  | a :: as, b :: bs, c :: cs, h1, h2 => by
    simp only [charListLe] at h1 h2 ⊢
    by_cases hab : a.toNat < b.toNat
    · by_cases hbc : b.toNat < c.toNat
      · rw [if_pos (by omega)]
      · rw [if_neg hbc] at h2
        by_cases hcb : c.toNat < b.toNat
        · rw [if_pos hcb] at h2
          exact absurd h2 (by decide)
        · rw [if_pos (by omega)]
    · rw [if_neg hab] at h1
      by_cases hba : b.toNat < a.toNat
      · rw [if_pos hba] at h1
        exact absurd h1 (by decide)
      · rw [if_neg hba] at h1
        by_cases hbc : b.toNat < c.toNat
        · rw [if_pos (by omega)]
        · rw [if_neg hbc] at h2
          by_cases hcb : c.toNat < b.toNat
          · rw [if_pos hcb] at h2
            exact absurd h2 (by decide)
          · rw [if_neg hcb] at h2
            rw [if_neg (show ¬a.toNat < c.toNat by omega),
              if_neg (show ¬c.toNat < a.toNat by omega)]
            exact charListLe_trans as bs cs h1 h2

theorem strLe_total (a b : String) : (strLe a b || strLe b a) = true :=
  charListLe_total a.data b.data

theorem strLe_trans (a b c : String) :
    strLe a b = true → strLe b c = true → strLe a c = true :=
  charListLe_trans a.data b.data c.data

/-! ## C8 (corrected: the sort key is the raw timestamp string) -/

/-- A reading whose timestamp uses the `Z` designator. -/
def srZ : Reading :=
  ⟨"2024-01-01T00:00:00Z", "550e8400-e29b-41d4-a716-446655440031", .finite 1 0⟩

/-- A reading denoting an *earlier* instant (2023-12-31T23:00:00 UTC)
written with an explicit `+03:00` offset; as a raw string it sorts
*after* `srZ`. -/
def srOff : Reading :=
  ⟨"2024-01-01T02:00:00+03:00", "550e8400-e29b-41d4-a716-446655440031", .finite 2 0⟩

/-- Counterexample to C8 as stated: the scheduler's sort leaves `srZ`
before `srOff` (raw string order), although `srOff`'s parsed instant is
strictly earlier — so the output is *not* ascending by parsed instant,
and two timestamps differing only in offset notation compare
incorrectly. -/
theorem C8_counterexample_offset :
    sortReadings [srZ, srOff] = [srZ, srOff] ∧
    instantOfTs srOff.ts < instantOfTs srZ.ts := by
  constructor
  · decide
  · decide

/-- C8 (amended): the Replay Scheduler sorts readings ascending by the
*raw timestamp string* (code-point lexicographic order), a stable
permutation of its input; because the key is the string and not the
parsed instant, timestamps differing only in offset notation may be
ordered non-chronologically. -/
theorem C8_sort_raw_string (readings : List Reading) :
    (sortReadings readings).Perm readings ∧
    List.Pairwise (fun a b => strLe a.ts b.ts = true) (sortReadings readings) := by
  haveI : IsTotal Reading tsLe :=
    ⟨fun a b => Bool.or_eq_true_iff.mp (strLe_total a.ts b.ts)⟩
  haveI : IsTrans Reading tsLe :=
    ⟨fun a b c => strLe_trans a.ts b.ts c.ts⟩
  constructor
  · exact List.perm_insertionSort tsLe readings
  · exact List.sorted_insertionSort tsLe readings

/-! ## Loader lemmas (for C9) -/

theorem loadRows_eq (rows : List CsvRow) (row_num : Nat) :
    loadRows row_num rows
      = ((rows.enumFrom row_num).filterMap fun p => (loadRow p.1 p.2).toOption,
         (rows.enumFrom row_num).filterMap fun p =>
           match loadRow p.1 p.2 with
           | .error w => some w
           | .ok _ => none) := by
  induction rows generalizing row_num with
  | nil => simp [loadRows, List.enumFrom]
  | cons row rest ih =>
    simp only [loadRows, List.enumFrom_cons, List.filterMap_cons]
    rw [ih (row_num + 1)]
    rcases h : loadRow row_num row with w | r <;> simp [h, Except.toOption]

/-! ## C9 -/

/-- The loader scenario of spec §8: one valid row, then one row whose
timestamp is `not-a-date`. -/
def exampleCsv : CsvData :=
  { fieldnames := ["timestamp", "sensor_id", "temperature_c"],
    rows := [⟨"2024-01-01T00:00:00Z", "550e8400-e29b-41d4-a716-446655440031", "-18.5"⟩,
             ⟨"not-a-date", "550e8400-e29b-41d4-a716-446655440031", "10.0"⟩] }

/-- A CSV source missing the required `temperature_c` column. -/
def missingColumnCsv : CsvData :=
  { fieldnames := ["timestamp", "sensor_id"],
    rows := [⟨"2024-01-01T00:00:00Z", "550e8400-e29b-41d4-a716-446655440031", "1.0"⟩] }

/-- C9: the loader aborts the whole load exactly when a required column
is absent; otherwise each row failing a per-row check is skipped with a
warning naming the row while the rest are loaded (the result is the
filter-map of the per-row parser over the numbered rows); on the spec's
example — one valid row and one row with timestamp `not-a-date` — it
yields exactly one Reading and one warning (for row 3, the bad
timestamp). -/
theorem C9_loader_row_policy :
    (∀ csv : CsvData,
      (requiredColumns.all fun c => csv.fieldnames.contains c) = false →
      load_csv_data csv
        = .error "CSV must contain columns: timestamp, sensor_id, temperature_c") ∧
    (∀ csv : CsvData,
      (requiredColumns.all fun c => csv.fieldnames.contains c) = true →
      load_csv_data csv = .ok
        ((csv.rows.enumFrom 2).filterMap fun p => (loadRow p.1 p.2).toOption,
         (csv.rows.enumFrom 2).filterMap fun p =>
           match loadRow p.1 p.2 with
           | .error w => some w
           | .ok _ => none)) ∧
    load_csv_data exampleCsv
      = .ok ([⟨"2024-01-01T00:00:00Z", "550e8400-e29b-41d4-a716-446655440031",
              .finite (-185) 1⟩],
             [⟨3, .invalidTimestamp⟩]) := by
  refine ⟨?_, ?_, ?_⟩
  · intro csv h
    rw [load_csv_data, if_neg (by simp only [h]; decide)]
  · intro csv h
    rw [load_csv_data, if_pos h, loadRows_eq]
  · rfl

/-- Witness for C9 at concrete inputs: a source missing a required
column aborts, and the spec's example source loads via the row loop. -/
theorem C9_loader_row_policy_witness :
    load_csv_data missingColumnCsv
      = .error "CSV must contain columns: timestamp, sensor_id, temperature_c" ∧
    load_csv_data exampleCsv = .ok
      ((exampleCsv.rows.enumFrom 2).filterMap fun p => (loadRow p.1 p.2).toOption,
       (exampleCsv.rows.enumFrom 2).filterMap fun p =>
         match loadRow p.1 p.2 with
         | .error w => some w
         | .ok _ => none) :=
  ⟨C9_loader_row_policy.1 missingColumnCsv (by decide),
   C9_loader_row_policy.2.1 exampleCsv (by decide)⟩

/-! ## C5 and C6: concrete runs

The run inputs below load a single valid reading. -/

/-- A CSV with one valid row, timestamped 2024-01-02. -/
def oneRowCsv : CsvData :=
  { fieldnames := ["timestamp", "sensor_id", "temperature_c"],
    rows := [⟨"2024-01-02T00:00:00Z", "550e8400-e29b-41d4-a716-446655440031", "20.5"⟩] }

/-- A transport oracle that always accepts with `processed = 1`. -/
def oracle200 : Nat → TransportResult := fun _ => ⟨200, ⟨some 1, none⟩⟩

/-- C5 (code evaluated at the failing input): a batch size of −1 is
*not* rejected — the run completes normally with zero statistics, zero
batches sent and no error, silently producing an empty batching of the
non-empty (one-reading) set; and a batch size of 0 is not rejected as a
pre-run configuration check either: the run proceeds through loading and
only then dies with `range()`'s uncaught `ValueError`. -/
theorem C5_batch_size_not_rejected :
    simulate_ingestion oneRowCsv 1 none none (-1) oracle200 = .ok ⟨0, 0, [], 0⟩ ∧
    simulate_ingestion oneRowCsv 1 none none 0 oracle200
      = .error (.valueError "range() arg 3 must not be zero") ∧
    (load_csv_data oneRowCsv).toOption.map (fun p => p.1.length) = some 1 := by
  refine ⟨rfl, rfl, rfl⟩

/-- C6 (code evaluated at the failing input): when loading succeeds with
one reading but the `start` filter removes it, the run does *not* end
normally with zero statistics — it raises (`readings[0]` in the
time-range print is an `IndexError`), because the empty-set early return
is checked before filtering, not after. -/
theorem C6_empty_after_filter_raises :
    simulate_ingestion oneRowCsv 1 (some "2024-01-03T00:00:00Z") none 100 oracle200
      = .error .indexError ∧
    (load_csv_data oneRowCsv).toOption.map (fun p => p.1.length) = some 1 ∧
    simulate_ingestion { oneRowCsv with rows := [] } 1 (some "2024-01-03T00:00:00Z")
      none 100 oracle200 = .ok ⟨0, 0, [], 0⟩ := by
  refine ⟨rfl, rfl, rfl⟩
